import Mathlib

/-!
Verification of the `egile-agent-x-twitter` repository: a shallow embedding of
`src/egile_agent_x_twitter/plugin.py` (class `XTwitterPlugin`) and of the
response-text handling of `src/egile_agent_x_twitter/mcp_client.py`
(class `MCPClient`), together with theorems settling the specification claims.

Python strings are modelled as `List Char`; Python `int` as `Int`;
`Optional[str]` as `Option (List Char)`.  The remote MCP server's answers are
an oracle argument (`Except RemoteErr (List Char)`): the plugin code never
inspects them, it only forwards them, so one oracle value per call suffices.
-/

set_option autoImplicit false

namespace EgileXTwitter

/-- Python whitespace test (ASCII range), as used by `str.strip`, `str.split()`
and the regex class `\s` on the strings this program manipulates. -/
def isPySpace (c : Char) : Bool :=
  c == ' ' || c == '\t' || c == '\n' || c == '\r' || c == '\x0b' || c == '\x0c'

/-- Python `str.strip()`: remove leading and trailing whitespace. -/
def pyStrip (s : List Char) : List Char :=
  ((s.dropWhile isPySpace).reverse.dropWhile isPySpace).reverse

def isDash (c : Char) : Bool := c == '-'

/-- The literal part of the extraction pattern in
`XTwitterPlugin._extract_post_text`. -/
def litPT : List Char := "POST TEXT:".toList

/-- Regex fragment `[-]+\n` at the head of `s`; returns the remainder after the
consumed prefix.  `[-]+` is greedy with backtracking, but a shorter dash run is
followed by a further `-`, never by `\n`, so only the maximal run can match:
the function is deterministic. -/
def dashNl (s : List Char) : Option (List Char) :=
  let r := s.takeWhile isDash
  if r = [] then none
  else
    match s.drop r.length with
    | c :: t => if c = '\n' then some t else none
    | [] => none

/-- Regex fragment `\s*\n` at the head of `s`; returns the remainder.  With
backtracking, `\s*\n` consumes a whitespace prefix ending at a `\n`; candidates
shorter than the maximal whitespace run leave the next character inside the
run, where the following `[-]` of the pattern cannot match, so only the full
run (when it ends in `\n`) is relevant: the function is deterministic. -/
def wsNl (s : List Char) : Option (List Char) :=
  let w := s.takeWhile isPySpace
  if w.getLast? = some '\n' then some (s.drop w.length) else none

/-- Regex fragment `(.+?)\n[-]+\n` (with `re.DOTALL`): non-greedy capture of at
least one character, stopping at the first position followed by
`\n[-]+\n`.  `acc` holds the captured characters in reverse. -/
def capMin (acc : List Char) : List Char → Option (List Char)
  | [] => none
  | c :: cs =>
    match cs with
    | c₂ :: t =>
      if c₂ = '\n' then
        match dashNl t with
        | some _ => some (c :: acc).reverse
        | none => capMin (c :: acc) cs
      else capMin (c :: acc) cs
    | [] => capMin (c :: acc) cs

/-- Attempt of the whole pattern `POST TEXT:\s*\n[-]+\n(.+?)\n[-]+\n` at the
start of `s`; returns the captured group. -/
def matchPT (s : List Char) : Option (List Char) :=
  if s.take litPT.length = litPT then
    match wsNl (s.drop litPT.length) with
    | some s₁ =>
      match dashNl s₁ with
      | some s₂ => capMin [] s₂
      | none => none
    | none => none
  else none

/-- `re.search` of the pattern: leftmost position at which a match exists. -/
def searchPT : List Char → Option (List Char)
  | [] => none
  | c :: cs =>
    match matchPT (c :: cs) with
    | some g => some g
    | none => searchPT cs

/-- `XTwitterPlugin._extract_post_text` (plugin.py lines 203-209):
`re.search(r"POST TEXT:\s*\n[-]+\n(.+?)\n[-]+\n", output, re.DOTALL)`,
returning the stripped first capture group when the pattern matches. -/
def extract_post_text (output : List Char) : Option (List Char) :=
  (searchPT output).map pyStrip

/-- An error raised by the remote MCP client (timeout or transport failure);
the plugin never inspects it, it only propagates. -/
structure RemoteErr where
  msg : List Char

/-- A call that reached the remote MCP client (arguments as passed by the
plugin).  `publish_post` and `create_post` of `MCPClient`. -/
inductive RemoteCall where
  | createPost (text style : List Char) (include_hashtags : Bool) (max_length : Int)
  | publishPost (post_text : List Char) (confirm : Bool)
deriving DecidableEq

/-- State of an `XTwitterPlugin` instance: the `use_mcp` flag, whether
`self._client` is not `None`, and `self._last_draft_text`. -/
structure PluginState where
  use_mcp : Bool
  has_client : Bool
  last_draft_text : Option (List Char)
deriving DecidableEq

/-- `XTwitterPlugin.__init__`: `_client = None`, `_last_draft_text = None`. -/
def initState (use_mcp : Bool) : PluginState :=
  PluginState.mk use_mcp false none

/-- `XTwitterPlugin.on_agent_start`: in remote mode a client is constructed
(and connected); in direct mode nothing happens. -/
def on_agent_start (st : PluginState) : PluginState :=
  if st.use_mcp then PluginState.mk st.use_mcp true st.last_draft_text else st

/-- `XTwitterPlugin.cleanup`: closes and drops the client if one exists. -/
def cleanup (st : PluginState) : PluginState :=
  if st.has_client then PluginState.mk st.use_mcp false st.last_draft_text else st

/-- Guidance string of `publish_post` when no text and no cached draft exist
(plugin.py lines 158-161). -/
def noPostTextMsg : List Char :=
  ("No post_text provided and no cached draft found. Please pass the exact post text to publish " ++
   "(e.g., the latest draft you just created). The MCP server is stateless, so include the full post_text in this call.").toList

/-- The part of the dry-run message preceding the effective post text
(plugin.py lines 164-166). -/
def dryRunPre : List Char :=
  "⚠️ DRY RUN MODE\n\nThis post is ready to publish:\n\n".toList

/-- The part of the dry-run message following the effective post text
(plugin.py lines 166-167). -/
def dryRunPost : List Char :=
  "\n\nTo actually publish, call this tool again with confirm=True".toList

/-- `XTwitterPlugin._publish_post_direct` (plugin.py lines 180-197); the
timestamp string rendered by `datetime.datetime.now().strftime(...)` is an
input. -/
def publish_post_direct (text timestamp : List Char) : List Char :=
  "🚀 Post Published Successfully!\n\n".toList ++
  "📝 PUBLISHED TEXT:\n".toList ++ List.replicate 60 '-' ++ "\n".toList ++
  text ++ "\n".toList ++
  List.replicate 60 '-' ++ "\n\n".toList ++
  "📊 DETAILS:\n".toList ++
  "  • Published At: ".toList ++ timestamp ++ "\n".toList ++
  "  • Character Count: ".toList ++ (Nat.repr text.length).toList ++ "\n".toList ++
  "  • Status: Success (simulated)\n\n".toList ++
  "⚠️ NOTE: This is a simulated publish. To publish to actual X/Twitter,\n".toList ++
  "configure the X API credentials in the MCP server and use MCP mode.\n".toList

/-- Line 156 of plugin.py: `effective_post_text = post_text or self._last_draft_text`
(Python truthiness: the empty string falls through to the cached draft). -/
def effectivePostText (st : PluginState) (post_text : List Char) : Option (List Char) :=
  if post_text ≠ [] then some post_text else st.last_draft_text

/-- `XTwitterPlugin.publish_post` (plugin.py lines 152-178).  Returns the
result (`.error` models a raised client exception propagating), the list of
calls that reached the remote client, and the new plugin state.  `remote` is
the oracle for `self._client.publish_post`; `timestamp` feeds the direct-mode
renderer. -/
def publish_post (st : PluginState) (post_text : List Char) (confirm : Bool)
    (remote : Except RemoteErr (List Char)) (timestamp : List Char) :
    Except RemoteErr (List Char) × List RemoteCall × PluginState :=
  match effectivePostText st post_text with
  | none => (Except.ok noPostTextMsg, [], st)
  | some e =>
    if e = [] then (Except.ok noPostTextMsg, [], st)
    else if ¬ confirm then (Except.ok (dryRunPre ++ e ++ dryRunPost), [], st)
    else if st.use_mcp && st.has_client then
      (remote, [RemoteCall.publishPost e true], st)
    else
      (Except.ok (publish_post_direct e timestamp), [], st)

/-- `XTwitterPlugin.get_last_draft` (plugin.py lines 199-201):
`return self._last_draft_text or ""`. -/
def get_last_draft (st : PluginState) : List Char :=
  match st.last_draft_text with
  | some d => d
  | none => []

/-- Style-dependent emoji marker of `_create_post_direct`
(plugin.py lines 109-116); each marker carries a trailing space. -/
def style_emoji (style : List Char) : List Char :=
  if style = "casual".toList then "👋 ".toList
  else if style = "witty".toList then "😄 ".toList
  else if style = "inspirational".toList then "✨ ".toList
  else "📢 ".toList

/-- Python `str.capitalize()`: first character uppercased, the rest
lowercased (ASCII case mapping, which covers the program's hashtag words). -/
def pyCapitalize (w : List Char) : List Char :=
  match w with
  | [] => []
  | c :: cs => c.toUpper :: cs.map Char.toLower

/-- Worker for `pySplitWs`: `acc` holds the characters of the word currently
being read, in reverse. -/
def pySplitWsAux (acc : List Char) : List Char → List (List Char)
  | [] => if acc = [] then [] else [acc.reverse]
  | c :: cs =>
    if isPySpace c then
      if acc = [] then pySplitWsAux [] cs else acc.reverse :: pySplitWsAux [] cs
    else pySplitWsAux (c :: acc) cs

/-- Python `str.split()` with no separator: split on runs of whitespace,
discarding empty fields. -/
def pySplitWs (s : List Char) : List (List Char) :=
  pySplitWsAux [] s

/-- The hashtag list of `_create_post_direct` (plugin.py lines 124-125):
`[f"#{word.capitalize()}" for word in words if len(word) > 4][:2]`. -/
def direct_hashtags (text : List Char) : List (List Char) :=
  (((pySplitWs text).filter (fun w => 4 < w.length)).map
    (fun w => '#' :: pyCapitalize w)).take 2

/-- Python slice `s[:n]` for an `int` bound `n` (negative bounds count from
the end of the string, clamped at zero). -/
def pyTake (s : List Char) (n : Int) : List Char :=
  if 0 ≤ n then s.take n.toNat else s.take ((s.length : Int) + n).toNat

/-- The post built by `_create_post_direct` before truncation
(plugin.py lines 119-127): emoji prefix, the text, and the optional hashtag
suffix. -/
def raw_post (text style : List Char) (include_hashtags : Bool) : List Char :=
  let post := style_emoji style ++ text
  if include_hashtags then
    let hashtags := direct_hashtags text
    if hashtags ≠ [] then post ++ "\n\n".toList ++ List.intercalate " ".toList hashtags
    else post
  else post

/-- The post body rendered by `_create_post_direct` after the truncation step
(plugin.py lines 129-131): `if len(post) > max_length: post = post[:max_length-3] + "..."`. -/
def create_post_direct_body (text style : List Char) (include_hashtags : Bool)
    (max_length : Int) : List Char :=
  let post := raw_post text style include_hashtags
  if max_length < (post.length : Int) then pyTake post (max_length - 3) ++ "...".toList
  else post

/-- `XTwitterPlugin._create_post_direct` (plugin.py lines 106-150): the full
formatted response around the post body. -/
def create_post_direct (text style : List Char) (include_hashtags : Bool)
    (max_length : Int) : List Char :=
  let post := create_post_direct_body text style include_hashtags max_length
  "✅ Post Created Successfully!\n\n".toList ++
  "📝 POST TEXT:\n".toList ++ List.replicate 60 '-' ++ "\n".toList ++
  post ++ "\n".toList ++
  List.replicate 60 '-' ++ "\n\n".toList ++
  "📊 STATISTICS:\n".toList ++
  "  • Characters: ".toList ++ (Nat.repr post.length).toList ++ "/".toList ++
    (Int.repr max_length).toList ++ "\n".toList ++
  "  • Hashtags: ".toList ++ (Nat.repr (post.count '#')).toList ++ "\n".toList ++
  "  • Style: ".toList ++ style ++ "\n\n".toList ++
  "💡 TIP: To publish this post, use the publish_post tool with confirm=True\n".toList

/-- Guidance string of `create_post` when both text arguments are empty
(plugin.py line 85). -/
def noTextMsg : List Char :=
  "No text provided. Pass either 'text' or 'post_text' with the content to draft.".toList

/-- Caching step of `create_post` (plugin.py lines 99-102):
`cached = self._extract_post_text(str(result)); if cached: self._last_draft_text = cached`
(Python truthiness: the empty string is not cached). -/
def cacheDraft (st : PluginState) (result : List Char) : PluginState :=
  match extract_post_text result with
  | some c =>
    if c ≠ [] then PluginState.mk st.use_mcp st.has_client (some c) else st
  | none => st

/-- Line 83 of plugin.py: `effective_text = text or post_text`
(Python truthiness: the empty string falls through to `post_text`). -/
def effectiveCreateText (text post_text : List Char) : List Char :=
  if text ≠ [] then text else post_text

/-- `XTwitterPlugin.create_post` (plugin.py lines 75-104).  `remote` is the
oracle for `self._client.create_post`; a `.error` oracle value models the
client raising, in which case the caching step is skipped and the exception
propagates (the call had still reached the client). -/
def create_post (st : PluginState) (text post_text style : List Char)
    (include_hashtags : Bool) (max_length : Int)
    (remote : Except RemoteErr (List Char)) :
    Except RemoteErr (List Char) × List RemoteCall × PluginState :=
  let effective_text := effectiveCreateText text post_text
  if effective_text = [] then (Except.ok noTextMsg, [], st)
  else
    let rc :
        Except RemoteErr (List Char) × List RemoteCall :=
      if st.use_mcp && st.has_client then
        (remote, [RemoteCall.createPost effective_text style include_hashtags max_length])
      else
        (Except.ok (create_post_direct effective_text style include_hashtags max_length), [])
    (rc.1, rc.2,
      match rc.1 with
      | Except.ok r => cacheDraft st r
      | Except.error _ => st)

/-- A content fragment of an MCP tool response: either one that carries a
`.text` attribute, or one that does not; `repr` is its Python `repr` string,
used by `str(result.content)`. -/
inductive ContentItem where
  | textItem (text itemRepr : List Char)
  | otherItem (itemRepr : List Char)
deriving DecidableEq

/-- The `.text` of a fragment when `hasattr(item, 'text')`. -/
def itemText? : ContentItem → Option (List Char)
  | ContentItem.textItem t _ => some t
  | ContentItem.otherItem _ => none

/-- The Python `repr` of a fragment. -/
def itemRepr : ContentItem → List Char
  | ContentItem.textItem _ r => r
  | ContentItem.otherItem r => r

/-- Python `str` of the fragment list `result.content`:
`"[" + ", ".join(repr(item) for item in items) + "]"`. -/
def pyStrOfContent (content : List ContentItem) : List Char :=
  '[' :: (List.intercalate ", ".toList (content.map itemRepr) ++ [']'])

/-- The success-path return value of `MCPClient.call_tool`
(mcp_client.py lines 124-128): if `result.content` is truthy, the newline-join
of the texts of fragments having a `.text` attribute, falling back to
`str(result.content)` when no fragment carries text; the empty string when
`result.content` is empty or `None`. -/
def call_tool_text (content : List ContentItem) : List Char :=
  match content with
  | [] => []
  | _ =>
    let text_parts := content.filterMap itemText?
    match text_parts with
    | [] => pyStrOfContent content
    | _ => List.intercalate "\n".toList text_parts

/-- One observable operation of a plugin instance, as a relation between the
state before and after (the remote oracle and the other arguments are
existentially packed into the constructors). -/
inductive Step : PluginState → PluginState → Prop where
  | create (st : PluginState) (text post_text style : List Char) (ih : Bool)
      (ml : Int) (remote : Except RemoteErr (List Char)) :
      Step st (create_post st text post_text style ih ml remote).2.2
  | publish (st : PluginState) (post_text : List Char) (confirm : Bool)
      (remote : Except RemoteErr (List Char)) (ts : List Char) :
      Step st (publish_post st post_text confirm remote ts).2.2
  | getDraft (st : PluginState) : Step st st
  | start (st : PluginState) : Step st (on_agent_start st)
  | close (st : PluginState) : Step st (cleanup st)

/-- States reachable from a freshly constructed plugin instance. -/
inductive Reach : PluginState → Prop where
  | init (use_mcp : Bool) : Reach (initState use_mcp)
  | step {st st' : PluginState} : Reach st → Step st st' → Reach st'

/-- The cached-draft provenance property of the specification: the draft slot
is either empty or holds a non-empty string extracted (by
`extract_post_text`) from the result of some `create_post` call. -/
def DraftProvenance (d : Option (List Char)) : Prop :=
  d = none ∨
  ∃ st₀ text post_text style ih ml remote r c,
    (create_post st₀ text post_text style ih ml remote).1 = Except.ok r ∧
    (create_post st₀ text post_text style ih ml remote).2.2.last_draft_text = some c ∧
    extract_post_text r = some c ∧ c ≠ [] ∧ d = some c

/-- Modelled from the claim's words (for comparison with the code): a result
string embeds a well-formed draft block with inner content `content` when it
contains, in order, a line containing `POST TEXT:`, a line of dash characters,
one or more content lines, and another line of dash characters. -/
def ClaimBlock (r content : List Char) : Prop :=
  ∃ pre lineRest d1 d2 rest,
    r = pre ++ litPT ++ lineRest ++ '\n' ::
        (d1 ++ '\n' :: (content ++ '\n' :: (d2 ++ '\n' :: rest))) ∧
    (∀ c ∈ lineRest, c ≠ '\n') ∧
    d1 ≠ [] ∧ (∀ c ∈ d1, c = '-') ∧
    d2 ≠ [] ∧ (∀ c ∈ d2, c = '-') ∧
    content ≠ []

/-- No proper prefix of `content` ending at a newline is followed by a
dash-separator line (relative to the tail `'\n' :: d2 ++ '\n' :: rest` that
follows `content` in the searched string): the non-greedy capture of the
extraction regex cannot stop early inside `content`. -/
def NoEarlyStop (content d2 rest : List Char) : Prop :=
  ∀ k, k < content.length → content.get? k = some '\n' →
    dashNl (content.drop (k + 1) ++ '\n' :: (d2 ++ '\n' :: rest)) = none

instance (content d2 rest : List Char) : Decidable (NoEarlyStop content d2 rest) := by
  unfold NoEarlyStop
  infer_instance

end EgileXTwitter

namespace EgileXTwitter

/-! ## Helper lemmas -/

/-- `publish_post` returns its state argument unchanged in every branch. -/
theorem publish_post_state_eq (st : PluginState) (post_text : List Char)
    (confirm : Bool) (remote : Except RemoteErr (List Char)) (ts : List Char) :
    (publish_post st post_text confirm remote ts).2.2 = st := by
  unfold publish_post
  cases effectivePostText st post_text with
  | none => rfl
  | some e =>
    by_cases he : e = [] <;> by_cases hc : confirm <;>
      by_cases hm : st.use_mcp && st.has_client <;> simp [he, hc, hm]

/-- `cacheDraft` either leaves the state unchanged or stores the non-empty
extracted text of the result it was given. -/
theorem cacheDraft_spec (st : PluginState) (r : List Char) :
    cacheDraft st r = st ∨
    ∃ c, extract_post_text r = some c ∧ c ≠ [] ∧
      cacheDraft st r = PluginState.mk st.use_mcp st.has_client (some c) := by
  unfold cacheDraft
  cases hx : extract_post_text r with
  | none => exact Or.inl rfl
  | some c =>
    by_cases hce : c = []
    · simp [hce]
    · exact Or.inr ⟨c, rfl, hce, by simp [hce]⟩

/-- `create_post` either leaves the state unchanged or stores a non-empty
string extracted from its own successful result. -/
theorem create_post_state (st : PluginState) (text post_text style : List Char)
    (ih : Bool) (ml : Int) (remote : Except RemoteErr (List Char)) :
    (create_post st text post_text style ih ml remote).2.2 = st ∨
    ∃ r c, (create_post st text post_text style ih ml remote).1 = Except.ok r ∧
      extract_post_text r = some c ∧ c ≠ [] ∧
      (create_post st text post_text style ih ml remote).2.2 =
        PluginState.mk st.use_mcp st.has_client (some c) := by
  unfold create_post
  by_cases heff : effectiveCreateText text post_text = []
  · simp [heff]
  · by_cases hm : st.use_mcp && st.has_client
    · simp only [heff, hm, if_true, if_false, ite_true, ite_false, if_neg, not_false_iff]
      cases remote with
      | error err => exact Or.inl rfl
      | ok r =>
        rcases cacheDraft_spec st r with h | ⟨c, hx, hc, h⟩
        · exact Or.inl h
        · exact Or.inr ⟨r, c, rfl, hx, hc, h⟩
    · simp only [heff, hm, if_true, if_false, ite_true, ite_false, if_neg, not_false_iff]
      rcases cacheDraft_spec st
          (create_post_direct (effectiveCreateText text post_text) style ih ml) with
        h | ⟨c, hx, hc, h⟩
      · exact Or.inl h
      · exact Or.inr ⟨_, c, rfl, hx, hc, h⟩

/-- `takeWhile` over an append whose left part satisfies `p` and whose right
part starts with a character violating `p`. -/
theorem takeWhile_append_cons {p : Char → Bool} (w : List Char) (x : Char)
    (t : List Char) (hw : ∀ c ∈ w, p c = true) (hx : p x = false) :
    (w ++ x :: t).takeWhile p = w := by
  induction w with
  | nil => simp [List.takeWhile, hx]
  | cons a w' ihw =>
    have ha : p a = true := hw a (List.mem_cons_self a w')
    simp only [List.cons_append, List.takeWhile, ha]
    exact congrArg (List.cons a) (ihw (fun c hc => hw c (List.mem_cons_of_mem a hc)))

/-- `dashNl` consumes exactly a non-empty dash run followed by a newline. -/
theorem dashNl_append (d : List Char) (u : List Char) (hd : d ≠ [])
    (hall : ∀ c ∈ d, c = '-') : dashNl (d ++ '\n' :: u) = some u := by
  have ht : (d ++ '\n' :: u).takeWhile isDash = d :=
    takeWhile_append_cons d '\n' u
      (fun c hc => by simp [isDash, hall c hc]) (by simp [isDash])
  unfold dashNl
  simp only [ht]
  rw [if_neg hd, List.drop_left]
  show (if ('\n' : Char) = '\n' then some u else none) = some u
  rw [if_pos rfl]

/-- `wsNl` consumes exactly a whitespace run that ends with a newline, when
the next character is not whitespace. -/
theorem wsNl_append (w : List Char) (x : Char) (t : List Char)
    (hw : ∀ c ∈ w, isPySpace c = true) (hlast : w.getLast? = some '\n')
    (hx : isPySpace x = false) : wsNl (w ++ x :: t) = some (x :: t) := by
  have ht : (w ++ x :: t).takeWhile isPySpace = w := takeWhile_append_cons w x t hw hx
  unfold wsNl
  simp only [ht]
  rw [if_pos hlast, List.drop_left]

/-- `capMin` step: a capture boundary is found right after the current
character. -/
theorem capMin_cons_found (acc : List Char) (c : Char) (t u : List Char)
    (h : dashNl t = some u) :
    capMin acc (c :: '\n' :: t) = some (acc.reverse ++ [c]) := by
  conv_lhs => rw [capMin]
  rw [if_pos rfl, h]
  simp

/-- `capMin` step: a newline follows but no dash separator after it, so the
capture is extended past the newline. -/
theorem capMin_cons_skip_newline (acc : List Char) (c : Char) (t : List Char)
    (h : dashNl t = none) :
    capMin acc (c :: '\n' :: t) = capMin (c :: acc) ('\n' :: t) := by
  conv_lhs => rw [capMin]
  rw [if_pos rfl, h]

/-- `capMin` step: the next character is not a newline, so the capture is
extended. -/
theorem capMin_cons_other (acc : List Char) (c x : Char) (cs : List Char)
    (hx : x ≠ '\n') : capMin acc (c :: x :: cs) = capMin (c :: acc) (x :: cs) := by
  conv_lhs => rw [capMin]
  rw [if_neg hx]

/-- Dropping the first character of a content block preserves `NoEarlyStop`. -/
theorem noEarlyStop_tail (c : Char) (cc d2 rest : List Char)
    (h : NoEarlyStop (c :: cc) d2 rest) : NoEarlyStop cc d2 rest := by
  intro k hk hg
  have := h (k + 1) (by simp only [List.length_cons]; omega)
    (by simpa using hg)
  simpa using this

/-- The non-greedy capture over a block with no early stop captures exactly
the content, up to the closing dash separator. -/
theorem capMin_block (d2 rest : List Char) (hd2 : d2 ≠ [])
    (hall2 : ∀ c ∈ d2, c = '-') :
    ∀ (content acc : List Char), content ≠ [] → NoEarlyStop content d2 rest →
      capMin acc (content ++ '\n' :: (d2 ++ '\n' :: rest)) =
        some (acc.reverse ++ content) := by
  intro content
  induction content with
  | nil => intro acc h _; exact absurd rfl h
  | cons c cc ihc =>
    intro acc _ hstop
    cases cc with
    | nil =>
      exact capMin_cons_found acc c _ rest (dashNl_append d2 rest hd2 hall2)
    | cons c₂ cc₂ =>
      have hrec := ihc (c :: acc) (by simp) (noEarlyStop_tail c _ d2 rest hstop)
      rw [show ((c₂ :: cc₂ : List Char) ++ '\n' :: (d2 ++ '\n' :: rest)) =
            c₂ :: (cc₂ ++ '\n' :: (d2 ++ '\n' :: rest)) from rfl] at hrec
      by_cases hc₂ : c₂ = '\n'
      · subst hc₂
        have hnone : dashNl (cc₂ ++ '\n' :: (d2 ++ '\n' :: rest)) = none := by
          have := hstop 1 (by simp only [List.length_cons]; omega) (by simp)
          simpa using this
        rw [show ((c :: '\n' :: cc₂ : List Char) ++ '\n' :: (d2 ++ '\n' :: rest)) =
              c :: '\n' :: (cc₂ ++ '\n' :: (d2 ++ '\n' :: rest)) from rfl,
            capMin_cons_skip_newline acc c _ hnone, hrec]
        simp
      · rw [show ((c :: c₂ :: cc₂ : List Char) ++ '\n' :: (d2 ++ '\n' :: rest)) =
              c :: c₂ :: (cc₂ ++ '\n' :: (d2 ++ '\n' :: rest)) from rfl,
            capMin_cons_other acc c c₂ _ hc₂, hrec]
        simp

/-- The full pattern matches at the start of a well-shaped block and captures
exactly the content. -/
theorem matchPT_block (ws d1 content d2 rest : List Char)
    (hws : ∀ c ∈ ws, isPySpace c = true) (hlast : ws.getLast? = some '\n')
    (hd1 : d1 ≠ []) (hall1 : ∀ c ∈ d1, c = '-')
    (hd2 : d2 ≠ []) (hall2 : ∀ c ∈ d2, c = '-')
    (hc : content ≠ []) (hstop : NoEarlyStop content d2 rest) :
    matchPT (litPT ++ (ws ++ (d1 ++ '\n' ::
        (content ++ '\n' :: (d2 ++ '\n' :: rest))))) = some content := by
  obtain ⟨x, d1', rfl⟩ : ∃ x d1', d1 = x :: d1' := by
    cases d1 with
    | nil => exact absurd rfl hd1
    | cons x d1' => exact ⟨x, d1', rfl⟩
  have hx : x = '-' := hall1 x (List.mem_cons_self x d1')
  subst hx
  have hda : dashNl ('-' :: (d1' ++ '\n' ::
      (content ++ '\n' :: (d2 ++ '\n' :: rest)))) =
      some (content ++ '\n' :: (d2 ++ '\n' :: rest)) := by
    have h2 := dashNl_append ('-' :: d1')
      (content ++ '\n' :: (d2 ++ '\n' :: rest)) (by simp) hall1
    rw [show ((('-' :: d1' : List Char) ++ '\n' ::
          (content ++ '\n' :: (d2 ++ '\n' :: rest)))) =
        '-' :: (d1' ++ '\n' :: (content ++ '\n' :: (d2 ++ '\n' :: rest))) from rfl] at h2
    exact h2
  have hcap : capMin [] (content ++ '\n' :: (d2 ++ '\n' :: rest)) = some content := by
    rw [capMin_block d2 rest hd2 hall2 content [] hc hstop]
    simp
  unfold matchPT
  rw [List.take_left, if_pos rfl, List.drop_left]
  rw [show ((('-' :: d1' : List Char) ++ '\n' ::
        (content ++ '\n' :: (d2 ++ '\n' :: rest)))) =
      '-' :: (d1' ++ '\n' :: (content ++ '\n' :: (d2 ++ '\n' :: rest))) from rfl]
  rw [wsNl_append ws '-' _ hws hlast (by simp [isPySpace])]
  show (match dashNl ('-' :: (d1' ++ '\n' ::
        (content ++ '\n' :: (d2 ++ '\n' :: rest)))) with
      | some s₂ => capMin [] s₂
      | none => none) = some content
  rw [hda]
  exact hcap

/-- `matchPT` fails wherever the literal `POST TEXT:` does not occur. -/
theorem matchPT_none_of_take_ne (s : List Char)
    (h : s.take litPT.length ≠ litPT) : matchPT s = none := by
  unfold matchPT
  rw [if_neg h]

/-- The search skips a prefix at which no match starts. -/
theorem searchPT_append_of_nomatch (pre tail : List Char)
    (h : ∀ i, i < pre.length → matchPT (pre.drop i ++ tail) = none) :
    searchPT (pre ++ tail) = searchPT tail := by
  induction pre with
  | nil => rfl
  | cons a pre' ihp =>
    have h0 : matchPT (a :: (pre' ++ tail)) = none := by
      have := h 0 (by simp only [List.length_cons]; omega)
      simpa using this
    have e : searchPT (a :: (pre' ++ tail)) =
        match matchPT (a :: (pre' ++ tail)) with
        | some g => some g
        | none => searchPT (pre' ++ tail) := rfl
    show searchPT (a :: (pre' ++ tail)) = searchPT tail
    rw [e, h0]
    show searchPT (pre' ++ tail) = searchPT tail
    refine ihp (fun i hi => ?_)
    have h2 := h (i + 1) (by simp only [List.length_cons]; omega)
    rw [List.drop_succ_cons] at h2
    exact h2

/-- The search returns the capture of a successful match at the head. -/
theorem searchPT_cons_of_match (s : List Char) (g : List Char) (hne : s ≠ [])
    (h : matchPT s = some g) : searchPT s = some g := by
  cases s with
  | nil => exact absurd rfl hne
  | cons a t =>
    unfold searchPT
    rw [h]

/-- `extract_post_text` on a string that decomposes into a recognized block:
the extracted draft is the stripped content of the block. -/
theorem extract_post_text_block (pre ws d1 content d2 rest r : List Char)
    (hr : r = pre ++ (litPT ++ (ws ++ (d1 ++ '\n' ::
        (content ++ '\n' :: (d2 ++ '\n' :: rest))))))
    (hpre : ∀ i, i < pre.length → (r.drop i).take litPT.length ≠ litPT)
    (hws : ∀ c ∈ ws, isPySpace c = true) (hlast : ws.getLast? = some '\n')
    (hd1 : d1 ≠ []) (hall1 : ∀ c ∈ d1, c = '-')
    (hd2 : d2 ≠ []) (hall2 : ∀ c ∈ d2, c = '-')
    (hc : content ≠ []) (hstop : NoEarlyStop content d2 rest) :
    extract_post_text r = some (pyStrip content) := by
  subst hr
  unfold extract_post_text
  rw [searchPT_append_of_nomatch pre _ (fun i hi =>
    matchPT_none_of_take_ne _ (by
      have hd : (pre ++ (litPT ++ (ws ++ (d1 ++ '\n' ::
            (content ++ '\n' :: (d2 ++ '\n' :: rest)))))).drop i =
          pre.drop i ++ (litPT ++ (ws ++ (d1 ++ '\n' ::
            (content ++ '\n' :: (d2 ++ '\n' :: rest))))) :=
        List.drop_append_of_le_length (le_of_lt hi)
      have := hpre i hi
      rw [hd] at this
      exact this))]
  rw [searchPT_cons_of_match _ content
    (by
      intro hnil
      have : litPT ≠ [] := by decide
      exact this (List.append_eq_nil.mp hnil).1)
    (matchPT_block ws d1 content d2 rest hws hlast hd1 hall1 hd2 hall2 hc hstop)]
  rfl

/-- When `create_post` has non-empty effective text and returns `.ok r`, its
final state is the caching of `r` into the initial state. -/
theorem create_post_cache_of_ok (st : PluginState) (text post_text style : List Char)
    (ih : Bool) (ml : Int) (remote : Except RemoteErr (List Char)) (r : List Char)
    (heff : effectiveCreateText text post_text ≠ [])
    (hres : (create_post st text post_text style ih ml remote).1 = Except.ok r) :
    (create_post st text post_text style ih ml remote).2.2 = cacheDraft st r := by
  by_cases hm : st.use_mcp && st.has_client
  · have h1 : (create_post st text post_text style ih ml remote).1 = remote := by
      unfold create_post; simp [heff, hm]
    rw [h1] at hres
    unfold create_post
    simp [heff, hm, hres]
  · have h1 : (create_post st text post_text style ih ml remote).1 =
        Except.ok (create_post_direct (effectiveCreateText text post_text) style ih ml) := by
      unfold create_post; simp [heff, hm]
    rw [h1] at hres
    have hdir := Except.ok.inj hres
    unfold create_post
    simp [heff, hm, hdir]

/-! ## Claim theorems -/

/-- Claim C1 (code bug): in remote mode (`use_mcp = true`) with no client
(start hook never invoked), `publish_post` with non-empty text and
`confirm = true` does NOT raise an initialization error: it falls through to
the direct-mode simulated publish and returns a normal result, performing no
remote call.  This contradicts the repository's own test
`test_publish_requires_client`, which expects a `RuntimeError` here. -/
theorem publish_post_absent_client_simulates (d : Option (List Char))
    (remote : Except RemoteErr (List Char)) (ts : List Char) :
    publish_post (PluginState.mk true false d) "text".toList true remote ts =
      (Except.ok (publish_post_direct "text".toList ts), [],
        PluginState.mk true false d) := rfl

/-- Claim C2: the remote publish operation is reached only when the caller
passed `confirm = true` in that same call; with `confirm = false` and a
non-empty effective text `e`, `publish_post` returns the dry-run preview
containing `e` verbatim, performs no remote call, and leaves the state (hence
any later call's behaviour) unchanged. -/
theorem publish_post_confirm_gate (st : PluginState) (post_text : List Char)
    (confirm : Bool) (remote : Except RemoteErr (List Char)) (ts : List Char) :
    ((publish_post st post_text confirm remote ts).2.1 ≠ [] → confirm = true) ∧
    (∀ e, effectivePostText st post_text = some e → e ≠ [] → confirm = false →
      publish_post st post_text confirm remote ts =
        (Except.ok (dryRunPre ++ e ++ dryRunPost), [], st)) := by
  constructor
  · intro hcalls
    by_contra hc
    have hc' : confirm = false := by
      cases confirm with
      | false => rfl
      | true => exact absurd rfl hc
    apply hcalls
    unfold publish_post
    cases effectivePostText st post_text with
    | none => rfl
    | some e =>
      by_cases he : e = [] <;> simp [he, hc']
  · intro e he hne hc
    unfold publish_post
    rw [he, hc]
    simp [hne]

/-- Claim C3: with empty `post_text` and no cached draft, `publish_post`
returns the guidance string, performs no remote call, and leaves the state
unchanged — for either value of `confirm`; in particular no empty text is
ever transmitted. -/
theorem publish_post_empty_guidance (st : PluginState) (confirm : Bool)
    (remote : Except RemoteErr (List Char)) (ts : List Char)
    (h : st.last_draft_text = none) :
    publish_post st [] confirm remote ts = (Except.ok noPostTextMsg, [], st) := by
  unfold publish_post effectivePostText
  simp [h]

/-- Claim C3 witness: the concrete fresh remote-mode plugin, `confirm = true`. -/
theorem publish_post_empty_guidance_witness :
    publish_post (initState true) [] true (Except.ok []) [] =
      (Except.ok noPostTextMsg, [], initState true) :=
  publish_post_empty_guidance (initState true) true (Except.ok []) [] rfl

/-- Claim C5: with a non-empty cached draft `D`, publishing with empty
`post_text` and `confirm = true` is the same call as publishing `D` with
`confirm = true`: same result, same remote calls, same final state. -/
theorem publish_post_cached_equiv (st : PluginState) (D : List Char)
    (remote : Except RemoteErr (List Char)) (ts : List Char)
    (hD : st.last_draft_text = some D) (hne : D ≠ []) :
    publish_post st [] true remote ts = publish_post st D true remote ts := by
  unfold publish_post effectivePostText
  simp [hD, hne]

/-- Claim C5 witness: concrete state with cached draft `"d"`. -/
theorem publish_post_cached_equiv_witness :
    publish_post (PluginState.mk true false (some ['d'])) [] true (Except.ok []) [] =
      publish_post (PluginState.mk true false (some ['d'])) ['d'] true (Except.ok []) [] :=
  publish_post_cached_equiv _ ['d'] _ _ rfl (by decide)

/-- Claim C10: `publish_post` leaves the whole plugin state — in particular
the cached draft — unchanged for every argument combination and in every
mode, and `get_last_draft` (a pure, total function of the state in this
embedding) observes the same draft after the call as before. -/
theorem publish_post_draft_frame (st : PluginState) (post_text : List Char)
    (confirm : Bool) (remote : Except RemoteErr (List Char)) (ts : List Char) :
    (publish_post st post_text confirm remote ts).2.2 = st ∧
    get_last_draft (publish_post st post_text confirm remote ts).2.2 =
      get_last_draft st := by
  have key := publish_post_state_eq st post_text confirm remote ts
  exact ⟨key, by rw [key]⟩

/-- Claim C2 witness: concrete dry run on a connected remote-mode plugin. -/
theorem publish_post_confirm_gate_witness :
    publish_post (PluginState.mk true true none) "X".toList false (Except.ok []) [] =
      (Except.ok (dryRunPre ++ "X".toList ++ dryRunPost), [],
        PluginState.mk true true none) :=
  (publish_post_confirm_gate (PluginState.mk true true none) "X".toList false
      (Except.ok []) []).2 "X".toList rfl (by decide) rfl

/-- Claim C6 counterexample: a plugin in remote mode (`use_mcp = true`) whose
start hook was never invoked (no client).  `create_post` with non-empty text
does not construct a client and does not delegate: it performs no remote call
and falls back to local direct formatting. -/
theorem create_post_no_lazy_client_cex :
    (create_post (PluginState.mk true false none) "hi".toList [] "professional".toList
        true 280 (Except.ok [])).2.1 = [] ∧
    (create_post (PluginState.mk true false none) "hi".toList [] "professional".toList
        true 280 (Except.ok [])).1 =
      Except.ok (create_post_direct "hi".toList "professional".toList true 280) :=
  ⟨rfl, rfl⟩

/-- Claim C6 amended: `create_post` with non-empty effective text delegates to
the client's `create_post` exactly when a client already exists in remote mode
(`use_mcp` and `_client` set by the start hook); when no client exists — even
in remote mode — it constructs none and falls back to local direct
formatting, performing no remote call. -/
theorem create_post_client_dispatch (st : PluginState)
    (text post_text style : List Char) (ih : Bool) (ml : Int)
    (remote : Except RemoteErr (List Char))
    (heff : effectiveCreateText text post_text ≠ []) :
    (st.use_mcp = true → st.has_client = true →
      (create_post st text post_text style ih ml remote).2.1 =
        [RemoteCall.createPost (effectiveCreateText text post_text) style ih ml] ∧
      (create_post st text post_text style ih ml remote).1 = remote) ∧
    ((st.use_mcp = false ∨ st.has_client = false) →
      (create_post st text post_text style ih ml remote).2.1 = [] ∧
      (create_post st text post_text style ih ml remote).1 =
        Except.ok (create_post_direct (effectiveCreateText text post_text) style ih ml)) := by
  constructor
  · intro hu hc
    unfold create_post
    simp [heff, hu, hc]
  · intro h
    have hm : (st.use_mcp && st.has_client) = false := by
      rcases h with h | h <;> simp [h]
    unfold create_post
    simp [heff, hm]

/-- Claim C6 witness: with a client present in remote mode, the call is
delegated. -/
theorem create_post_client_dispatch_witness :
    (create_post (PluginState.mk true true none) "hi".toList [] "p".toList true 280
        (Except.ok "ok".toList)).2.1 =
      [RemoteCall.createPost "hi".toList "p".toList true 280] :=
  ((create_post_client_dispatch (PluginState.mk true true none) "hi".toList []
      "p".toList true 280 (Except.ok "ok".toList) (by decide)).1 rfl rfl).1

/-- Claim C7 counterexample: a successful response whose single fragment
carries no text.  `call_tool` returns `str(result.content)` — a non-empty
bracketed rendering — not the empty string the claim requires. -/
theorem call_tool_text_nontext_cex :
    ([ContentItem.otherItem "ImageContent()".toList].filterMap itemText? = []) ∧
    call_tool_text [ContentItem.otherItem "ImageContent()".toList] =
      "[ImageContent()]".toList ∧
    call_tool_text [ContentItem.otherItem "ImageContent()".toList] ≠ [] :=
  ⟨rfl, by decide, by decide⟩

/-- Claim C7 amended: on success `call_tool` returns the newline-joined texts
of the fragments carrying text; it returns the empty string only when the
response carries no fragments at all; when fragments exist but none carries
text it returns the non-empty `str` rendering of the raw fragment list. -/
theorem call_tool_text_amended (content : List ContentItem) :
    (content = [] → call_tool_text content = []) ∧
    (content.filterMap itemText? ≠ [] →
      call_tool_text content =
        List.intercalate "\n".toList (content.filterMap itemText?)) ∧
    (content ≠ [] → content.filterMap itemText? = [] →
      call_tool_text content = pyStrOfContent content ∧
      call_tool_text content ≠ []) := by
  refine ⟨?_, ?_, ?_⟩
  · intro h; subst h; rfl
  · intro h
    cases content with
    | nil => exact absurd rfl h
    | cons a l =>
      unfold call_tool_text
      cases hp : List.filterMap itemText? (a :: l) with
      | nil => exact absurd hp h
      | cons x xs => simp
  · intro hne hp
    cases content with
    | nil => exact absurd rfl hne
    | cons a l =>
      constructor
      · unfold call_tool_text
        rw [hp]
      · unfold call_tool_text
        rw [hp]
        simp [pyStrOfContent]

/-- Claim C7 witness: two text fragments are newline-joined. -/
theorem call_tool_text_amended_witness :
    call_tool_text
        [ContentItem.textItem "a".toList "ra".toList,
         ContentItem.textItem "b".toList "rb".toList] =
      List.intercalate "\n".toList
        ([ContentItem.textItem "a".toList "ra".toList,
          ContentItem.textItem "b".toList "rb".toList].filterMap itemText?) :=
  (call_tool_text_amended _).2.1 (by decide)

/-- Claim C9 counterexample: with `max_length = 2` (&lt; 3) and text `"hello"`,
the built post (7 characters) exceeds `max_length`, and the Python slice
`post[:max_length-3]` is `post[:-1]`, so the "truncated" body is the 9
character string `"📢 hell..."` — longer than `max_length`. -/
theorem create_post_direct_truncation_cex :
    create_post_direct_body "hello".toList "professional".toList false 2 =
      "📢 hell...".toList ∧
    ¬ (((create_post_direct_body "hello".toList "professional".toList false 2).length : Int)
        ≤ 2) := by
  constructor
  · decide
  · decide

/-- Claim C9 amended: the direct-mode formatter prefixes the style emoji to
the text, appends at most two capitalized hashtags derived from words longer
than 4 characters, and — provided `max_length ≥ 3` — truncates a post that
exceeds `max_length` to at most `max_length` characters ending in `"..."`
(for `max_length &lt; 3` the Python negative slice makes the result longer
instead). -/
theorem create_post_direct_format (text style : List Char) (ih : Bool) (ml : Int)
    (hml : 3 ≤ ml) :
    (∃ tail, raw_post text style ih = style_emoji style ++ text ++ tail) ∧
    (direct_hashtags text).length ≤ 2 ∧
    (((raw_post text style ih).length : Int) ≤ ml →
      create_post_direct_body text style ih ml = raw_post text style ih) ∧
    (ml < ((raw_post text style ih).length : Int) →
      ((create_post_direct_body text style ih ml).length : Int) ≤ ml ∧
      ∃ p, create_post_direct_body text style ih ml = p ++ "...".toList) := by
  refine ⟨?_, ?_, ?_, ?_⟩
  · unfold raw_post
    cases ih with
    | false => exact ⟨[], by simp⟩
    | true =>
      by_cases hh : direct_hashtags text ≠ []
      · exact ⟨"\n\n".toList ++ List.intercalate " ".toList (direct_hashtags text),
          by simp [hh, List.append_assoc]⟩
      · exact ⟨[], by simp [hh]⟩
  · unfold direct_hashtags
    rw [List.length_take]
    omega
  · intro h
    unfold create_post_direct_body
    rw [if_neg (not_lt.mpr h)]
  · intro h
    unfold create_post_direct_body
    rw [if_pos h]
    refine ⟨?_, pyTake (raw_post text style ih) (ml - 3), rfl⟩
    rw [List.length_append]
    unfold pyTake
    rw [if_pos (by omega : (0 : Int) ≤ ml - 3)]
    rw [List.length_take]
    have h3 : ((ml - 3).toNat : Int) = ml - 3 := Int.toNat_of_nonneg (by omega)
    have hmin : min (ml - 3).toNat (raw_post text style ih).length ≤ (ml - 3).toNat :=
      Nat.min_le_left _ _
    have hlen : ("...".toList.length : Int) = 3 := by decide
    push_cast
    omega

/-- Claim C9 witness: `max_length = 10` keeps the short post untouched. -/
theorem create_post_direct_format_witness :
    create_post_direct_body "hello".toList "x".toList false 10 =
      raw_post "hello".toList "x".toList false :=
  (create_post_direct_format "hello".toList "x".toList false 10 (by decide)).2.2.1
    (by decide)

/-- Claim C8: in every reachable plugin state the cached draft, when present,
is a non-empty string extracted by `extract_post_text` from the successful
result of some `create_post` call; and none of `publish_post`,
`on_agent_start`, `cleanup` (nor the pure `get_last_draft`) ever writes the
cache — `create_post` is the only writer. -/
theorem draft_cache_provenance :
    (∀ st, Reach st → DraftProvenance st.last_draft_text) ∧
    (∀ st (post_text : List Char) (confirm : Bool)
      (remote : Except RemoteErr (List Char)) (ts : List Char),
      (publish_post st post_text confirm remote ts).2.2.last_draft_text =
        st.last_draft_text) ∧
    (∀ st, (on_agent_start st).last_draft_text = st.last_draft_text) ∧
    (∀ st, (cleanup st).last_draft_text = st.last_draft_text) := by
  have hstart : ∀ st, (on_agent_start st).last_draft_text = st.last_draft_text := by
    intro st; unfold on_agent_start; by_cases h : st.use_mcp <;> simp [h]
  have hclean : ∀ st, (cleanup st).last_draft_text = st.last_draft_text := by
    intro st; unfold cleanup; by_cases h : st.has_client <;> simp [h]
  have hpub : ∀ st (pt : List Char) (c : Bool) (r : Except RemoteErr (List Char))
      (t : List Char),
      (publish_post st pt c r t).2.2.last_draft_text = st.last_draft_text :=
    fun st pt c r t => by rw [publish_post_state_eq]
  refine ⟨?_, hpub, hstart, hclean⟩
  intro st hr
  induction hr with
  | init u => exact Or.inl rfl
  | step hr hs ih =>
    cases hs with
    | create text pt style ihh ml rem =>
      rcases create_post_state _ text pt style ihh ml rem with
        h | ⟨r, c, h1, h2, h3, h4⟩
      · rw [h]; exact ih
      · exact Or.inr ⟨_, text, pt, style, ihh, ml, rem, r, c, h1,
          by rw [h4], h2, h3, by rw [h4]⟩
    | publish pt confirm rem ts => rw [hpub]; exact ih
    | getDraft => exact ih
    | start => rw [hstart]; exact ih
    | close => rw [hclean]; exact ih

/-- Claim C8 witness: the invariant at the concrete freshly constructed
remote-mode plugin state. -/
theorem draft_cache_provenance_witness :
    DraftProvenance (initState true).last_draft_text :=
  draft_cache_provenance.1 (initState true) (Reach.init true)

/-- Claim C4 counterexample: a `create_post` call (remote mode, client
present) whose result is `"POST TEXT: x\n----\nc\n----\n"`.  Per the claim
this embeds a well-formed block (the first line contains `POST TEXT:`, then a
dash line, the content line `c`, a dash line), yet the extraction regex
requires only whitespace after `POST TEXT:` on its line, so nothing is
cached and the subsequent `get_last_draft` returns `""`, not `"c"`. -/
theorem draft_extraction_claim_cex :
    ClaimBlock "POST TEXT: x\n----\nc\n----\n".toList ['c'] ∧
    (create_post (PluginState.mk true true none) "hi".toList [] "p".toList true 280
        (Except.ok "POST TEXT: x\n----\nc\n----\n".toList)).1 =
      Except.ok "POST TEXT: x\n----\nc\n----\n".toList ∧
    pyStrip ['c'] = ['c'] ∧
    get_last_draft
      (create_post (PluginState.mk true true none) "hi".toList [] "p".toList true 280
        (Except.ok "POST TEXT: x\n----\nc\n----\n".toList)).2.2 = [] ∧
    ([] : List Char) ≠ ['c'] := by
  refine ⟨⟨[], " x".toList, "----".toList, "----".toList, [], ?_, ?_, ?_, ?_, ?_, ?_, ?_⟩,
    rfl, rfl, ?_, by decide⟩
  · decide
  · decide
  · decide
  · decide
  · decide
  · decide
  · decide
  · decide

/-- Claim C4 amended: if the result of a `create_post` call with non-empty
effective text contains a recognized block — the leftmost occurrence of
`POST TEXT:` followed by only whitespace up to a newline, a line of dashes,
one or more content lines none of which (after the first) lets a dash line
terminate the capture early, and a closing line of dashes — and the trimmed
inner content is non-empty, then a subsequent `get_last_draft()` returns
exactly that trimmed inner content. -/
theorem draft_extraction_amended (st : PluginState)
    (text post_text style : List Char) (ih : Bool) (ml : Int)
    (remote : Except RemoteErr (List Char))
    (pre ws d1 content d2 rest r : List Char)
    (heff : effectiveCreateText text post_text ≠ [])
    (hres : (create_post st text post_text style ih ml remote).1 = Except.ok r)
    (hr : r = pre ++ (litPT ++ (ws ++ (d1 ++ '\n' ::
        (content ++ '\n' :: (d2 ++ '\n' :: rest))))))
    (hpre : ∀ i, i < pre.length → (r.drop i).take litPT.length ≠ litPT)
    (hws : ∀ c ∈ ws, isPySpace c = true) (hlast : ws.getLast? = some '\n')
    (hd1 : d1 ≠ []) (hall1 : ∀ c ∈ d1, c = '-')
    (hd2 : d2 ≠ []) (hall2 : ∀ c ∈ d2, c = '-')
    (hc : content ≠ []) (hstop : NoEarlyStop content d2 rest)
    (htrim : pyStrip content ≠ []) :
    get_last_draft (create_post st text post_text style ih ml remote).2.2 =
      pyStrip content := by
  have hext : extract_post_text r = some (pyStrip content) :=
    extract_post_text_block pre ws d1 content d2 rest r hr hpre hws hlast
      hd1 hall1 hd2 hall2 hc hstop
  rw [create_post_cache_of_ok st text post_text style ih ml remote r heff hres]
  unfold cacheDraft
  rw [hext]
  show get_last_draft (if pyStrip content ≠ [] then
      PluginState.mk st.use_mcp st.has_client (some (pyStrip content)) else st) =
    pyStrip content
  rw [if_pos htrim]
  rfl

/-- Claim C4 witness: a minimal well-formed block arriving as the remote
result; the draft `"c"` is then returned by `get_last_draft`. -/
theorem draft_extraction_amended_witness :
    get_last_draft
      (create_post (PluginState.mk true true none) "hi".toList [] "p".toList true 280
        (Except.ok "POST TEXT:\n-\nc\n-\n".toList)).2.2 = pyStrip ['c'] :=
  draft_extraction_amended (PluginState.mk true true none) "hi".toList [] "p".toList
    true 280 (Except.ok "POST TEXT:\n-\nc\n-\n".toList)
    [] ['\n'] ['-'] ['c'] ['-'] [] "POST TEXT:\n-\nc\n-\n".toList
    (by decide) rfl (by decide) (by decide) (by decide) (by decide) (by decide)
    (by decide) (by decide) (by decide) (by decide) (by decide) (by decide)

end EgileXTwitter
